import Mathlib

/-!
Shallow embedding of the CiteWise core (page-aware chunking and
multi-collection retrieval with global re-ranking), translated from
`src/Archive/citewise_utils.py`, `src/pages/001_Upload_Sources.py` and
`src/pages/002_Find_Citations.py`.

Modelling conventions:
* distances (Python floats used only through `≤` comparisons) are `Rat`;
* embedding vectors are opaque lists of rationals;
* the external collaborators (SentenceTransformer encoder, ChromaDB
  collection query, the langchain text splitter) are function parameters;
  a Python exception raised by a collaborator is an `Except.error`;
* a ChromaDB query result dict is the `QueryResult` structure; the empty
  dict `{}` is `emptyQueryResult`;
* Python `int(s)` is modelled by `pyInt?`, Python `str.strip` by
  `pyStrip`, and the slice `s[-n:]` (for `n > 0`) by `pyTail`.
-/

namespace CiteWise

/-- Embedding vectors; their contents are never inspected by the core. -/
abbrev Vec := List Rat

/-- A metadata mapping (Python dict of strings). -/
abbrev Meta := List (String × String)

/-- `class Source`: container for a retrieved chunk from ChromaDB.
The `metadata` slot is dynamically typed in Python, so it is modelled as
`Option Meta`; `none` models Python `None`. -/
structure Source where
  filename : String
  id : String
  doc : String
  metadata : Option Meta
  distance : Rat
deriving DecidableEq

/-- Python `metadata or {}` from `Source.__init__`: `None` (and the falsy
empty dict) become the empty dict. -/
def pyOrEmpty (metadata : Option Meta) : Option Meta :=
  match metadata with
  | none => some []
  | some d => if d = [] then some [] else some d

/-- `Source.__init__`: stores `metadata or {}` into the metadata slot. -/
def Source.make (filename id doc : String) (metadata : Option Meta)
    (distance : Rat) : Source :=
  ⟨filename, id, doc, pyOrEmpty metadata, distance⟩

/-- The dict returned by `collection.query(...)`: parallel nested lists,
one inner list per query embedding (the code always queries with a single
embedding, hence only index 0 is used). -/
structure QueryResult where
  ids : List (List String)
  documents : List (List String)
  metadatas : List (List (Option Meta))
  distances : List (List Rat)
deriving DecidableEq

/-- The empty dict `{}` returned by `retrieve_top_k` when the query
embedding is `None`. -/
def emptyQueryResult : QueryResult := ⟨[], [], [], []⟩

/-- Python truthiness test `res and res.get("ids") and res["ids"][0]`
(equivalently the guard
`not results or "ids" not in results or not results["ids"] or not results["ids"][0]`
in `get_sources`, negated). -/
def QueryResult.hasHits (res : QueryResult) : Bool :=
  match res.ids with
  | [] => false
  | ids0 :: _ => !ids0.isEmpty

/-- The inner loop of `get_sources` for one `(filename, results)` entry:
`for i in range(len(results["ids"][0])): sources.append(Source(...))`.
ChromaDB guarantees the four inner lists are parallel; the `getD`
defaults model Python indexing only at positions that exist for
well-formed results. -/
def sources_of_result (filename : String) (results : QueryResult) : List Source :=
  let ids0 := results.ids.headD []
  let docs0 := results.documents.headD []
  let metas0 := results.metadatas.headD []
  let dists0 := results.distances.headD []
  (List.range ids0.length).map fun i =>
    Source.make filename (ids0.getD i "") (docs0.getD i "")
      (metas0.getD i none) (dists0.getD i 0)

/-- `get_sources`: flatten ChromaDB query results into a list of `Source`
objects, skipping entries that fail the empty-results guard.
`results_by_collection` is an insertion-ordered dict, modelled as an
association list. -/
def get_sources (results_by_collection : List (String × QueryResult)) :
    List Source :=
  results_by_collection.flatMap fun fr =>
    if fr.2.hasHits then sources_of_result fr.1 fr.2 else []

/-- `get_top_k_sources`: `sorted(sources_list, key=lambda x: x.distance)[:num_k]`.
Python `sorted` is a stable sort; `mergeSort` is the stable sort of the
Lean library.  The slice `[:num_k]` is `take` (callers only ever pass
`num_k ≥ 1`, so Python negative-index slicing is not modelled). -/
def get_top_k_sources (sources_list : List Source) (num_k : Int) : List Source :=
  if sources_list = [] then []
  else ((sources_list.mergeSort fun a b => decide (a.distance ≤ b.distance)).take
    num_k.toNat)

/-- Python `str.strip()`: drop leading and trailing whitespace. -/
def pyStrip (s : String) : String :=
  ⟨((s.data.dropWhile Char.isWhitespace).reverse.dropWhile Char.isWhitespace).reverse⟩

/-- Read a non-empty all-digit character list as a number. -/
def digitsToNat? (l : List Char) : Option Nat :=
  if l ≠ [] ∧ l.all Char.isDigit then
    some (l.foldl (fun n c => 10 * n + (c.toNat - 48)) 0)
  else none

/-- Python `int(s)` on a string: optional surrounding whitespace, an
optional sign, then decimal digits; anything else raises `ValueError`
(`none` here). -/
def pyInt? (s : String) : Option Int :=
  match (pyStrip s).data with
  | '+' :: rest => (digitsToNat? rest).map Int.ofNat
  | '-' :: rest => (digitsToNat? rest).map fun n => -(n : Int)
  | rest => (digitsToNat? rest).map Int.ofNat

/-- `embed_query`: strip the query; a blank query yields `None` without
calling the encoder; an encoder exception is caught and yields `None`. -/
def embed_query (encode : String → Except String Vec) (query : String) :
    Option Vec :=
  let q := pyStrip query
  if q = "" then none
  else
    match encode q with
    | .ok v => some v
    | .error _ => none

/-- The clamp `k = max(1, min(int(k), 50))` from `retrieve_top_k`
(`int(k)` on an `int` is the identity). -/
def clamp_k (k : Int) : Int := max 1 (min k 50)

/-- `retrieve_top_k`: query a single ChromaDB collection.  The store
call `collection.query(query_embeddings=[v], n_results=k)` is the
function parameter `query`; an exception raised by the store propagates
(there is no `try`/`except` in this function). -/
def retrieve_top_k (query : String → Vec → Int → Except String QueryResult)
    (query_embedding : Option Vec) (k : Int) (collection_name : String) :
    Except String QueryResult :=
  match query_embedding with
  | none => .ok emptyQueryResult
  | some v => query collection_name v (clamp_k k)

/-- The `try: k = int(num_k); if k <= 0: raise ValueError` block:
`some k` iff `num_k` parses as a positive integer. -/
def parse_positive_k (num_k : String) : Option Int :=
  match pyInt? num_k with
  | none => none
  | some k => if k ≤ 0 then none else some k

/-- The four result kinds of `run_search_logic`'s returned dict. -/
inductive Outcome where
  | warning (msg : String)
  | error (msg : String)
  | info (msg : String)
  | results (items : List Source)
deriving DecidableEq

/-- The retrieval loop of `run_search_logic`:
`for name in selected_sources: res = retrieve_top_k(...); if res and res.get("ids") and res["ids"][0]: results_by_collection[name] = res`.
An exception from the store propagates out of the loop at the first
failing collection. -/
def collect_results (query : String → Vec → Int → Except String QueryResult)
    (qvec : Option Vec) (k : Int) :
    List String → Except String (List (String × QueryResult))
  | [] => .ok []
  | name :: rest => do
    let res ← retrieve_top_k query qvec k name
    let tail ← collect_results query qvec k rest
    pure (if res.hasHits then (name, res) :: tail else tail)

/-- `run_search_logic`: validations in order, embed, retrieve from each
selected collection, flatten, globally re-rank, classify the outcome.
An uncaught Python exception escaping the function is `Except.error`. -/
def run_search_logic (encode : String → Except String Vec)
    (query : String → Vec → Int → Except String QueryResult)
    (user_query : String) (num_k : String) (selected_sources : List String) :
    Except String Outcome := do
  if selected_sources = [] then
    pure (.warning "Please select at least one source to search.")
  else if pyStrip user_query = "" then
    pure (.warning "Please enter a query.")
  else
    match parse_positive_k num_k with
    | none => pure (.warning "Please enter a valid positive number for matches.")
    | some k =>
      match embed_query encode user_query with
      | none =>
        pure (.error "Could not embed your query. Please try a different query or reload the app.")
      | some qvec => do
        let results_by_collection ← collect_results query (some qvec) k selected_sources
        if results_by_collection = [] then
          pure (.warning "No results returned from the selected sources.")
        else
          let flat_sources := get_sources results_by_collection
          let top_hits := get_top_k_sources flat_sources k
          if top_hits = [] then pure (.info "No matches found.")
          else pure (.results top_hits)

/-! ### Page-aware chunking (`src/pages/001_Upload_Sources.py`) -/

/-- A page dict produced by `load_pdf_pages`:
`{"page_num": [i + 1], "source": filename, "text": cleaned_text}`.
`load_pdf_pages` appends a page only when its cleaned text is non-empty,
so the list handed to `split_pages_with_metadata` contains only
non-empty pages. -/
structure Page where
  page_num : List Nat
  source : String
  text : String
deriving DecidableEq

/-- Out-of-range default for `List.getD`; the chunker only ever indexes
in range. -/
def defaultPage : Page := ⟨[], "", ""⟩

/-- A chunk dict produced by `split_pages_with_metadata`. -/
structure Chunk where
  page_num : List Nat
  source : String
  chunk_id : String
  text : String
deriving DecidableEq

/-- `chunk_size=1000` from the `RecursiveCharacterTextSplitter` setup. -/
def chunk_size : Nat := 1000

/-- `chunk_overlap=200` from the `RecursiveCharacterTextSplitter` setup:
the configured chunk overlap. -/
def chunk_overlap : Nat := 200

/-- Python slice `s[-n:]` for `n > 0`: the last `n` characters of `s`
(all of `s` when it is shorter than `n`). -/
def pyTail (s : String) (n : Nat) : String :=
  ⟨s.data.drop (s.data.length - n)⟩

/-- The text handed to `splitter.split_text` for page `i` (lines 87-90):
`if i > 0: text = pages[i - 1]["text"][-300:] + " " + text`. -/
def text_to_split (pages : List Page) (i : Nat) : String :=
  let page := pages.getD i defaultPage
  if 0 < i then pyTail (pages.getD (i - 1) defaultPage).text 300 ++ " " ++ page.text
  else page.text

/-- The body of `split_pages_with_metadata` for one page:
`for j, part in enumerate(split_parts): if not part.strip(): continue; ... chunks.append(...)`.
Note `j` comes from `enumerate` over the unfiltered `split_parts`. -/
def chunks_of_page (split_text : String → List String) (pages : List Page)
    (i : Nat) : List Chunk :=
  let page := pages.getD i defaultPage
  let curr_page_num := page.page_num.headD 0
  let filename := page.source
  let split_parts := split_text (text_to_split pages i)
  split_parts.enum.filterMap fun jp =>
    if pyStrip jp.2 = "" then none
    else
      some
        { page_num :=
            if 0 < i ∧ jp.1 = 0 then
              [(pages.getD (i - 1) defaultPage).page_num.headD 0, curr_page_num]
            else [curr_page_num]
          source := filename
          chunk_id := filename ++ "_p" ++ Nat.repr curr_page_num ++ "_c" ++ Nat.repr jp.1
          text := jp.2 }

/-- `split_pages_with_metadata`: iterate `for i, page in enumerate(pages)`
and concatenate each page's chunks, with the external langchain splitter
as the parameter `split_text`. -/
def split_pages_with_metadata (split_text : String → List String)
    (pages : List Page) : List Chunk :=
  (List.range pages.length).flatMap (chunks_of_page split_text pages)

/-! ### Decimal representation facts

`chunk_id` is built with `Nat.repr` (the f-string `{curr_page_num}` /
`{j}` interpolation).  To reason about collisions we relate `Nat.repr`
to a structural recursion `digitsRec`, show its characters are decimal
digits, and derive injectivity. -/

/-- The decimal digit characters of `n`, most significant first. -/
def digitsRec (n : Nat) : List Char :=
  if h : n < 10 then [Nat.digitChar n]
  else
    have : n / 10 < n := Nat.div_lt_self (by omega) (by omega)
    digitsRec (n / 10) ++ [Nat.digitChar (n % 10)]

/-- Reading the digit characters back as a number. -/
def digitsVal (l : List Char) : Nat :=
  l.foldl (fun a c => 10 * a + (c.toNat - 48)) 0

/-! ### Concrete fixtures for witnesses and counterexamples -/

/-- An encoder that always succeeds. -/
def encodeOk : String → Except String Vec := fun _ => .ok [1]

/-- An encoder that always raises. -/
def encodeFail : String → Except String Vec := fun _ => .error "model down"

/-- A two-hit query result for collection `paperA`. -/
def goodQR : QueryResult :=
  ⟨[["a1", "a2"]], [["docA1", "docA2"]], [[some [("source", "paperA")], none]],
    [[1, 3]]⟩

/-- A store whose every collection returns `goodQR`. -/
def storeGood : String → Vec → Int → Except String QueryResult :=
  fun _ _ _ => .ok goodQR

/-- A store whose every collection returns a hit-free result. -/
def storeEmpty : String → Vec → Int → Except String QueryResult :=
  fun _ _ _ => .ok emptyQueryResult

/-- A store that raises on collection `"bad"` and answers `goodQR`
elsewhere. -/
def storeFailBad : String → Vec → Int → Except String QueryResult :=
  fun name _ _ => if name = "bad" then .error "boom" else .ok goodQR

/-- Fixture sources with a distance tie between `tieA` and `tieB`. -/
def tieA : Source := Source.make "paperA" "a1" "docA1" (some []) 2

def tieB : Source := Source.make "paperB" "b1" "docB1" none 2

def nearC : Source := Source.make "paperB" "b2" "docB2" none 1

def wList : List Source := [tieA, tieB, nearC]

/-- A splitter returning a whitespace-only middle part. -/
def blankSplitter : String → List String := fun _ => ["a", " ", "b"]

/-- A page whose text is 301 characters long. -/
def longPage : Page := ⟨[1], "f", ⟨List.replicate 301 'a'⟩⟩

def cexPages : List Page := [longPage, ⟨[2], "f", "tail"⟩]

def onePage : List Page := [⟨[1], "f", "x"⟩]

def twoPages : List Page := [⟨[1], "f", "x"⟩, ⟨[2], "f", "y"⟩]


theorem digitsRec_lt (n : Nat) (h : n < 10) : digitsRec n = [Nat.digitChar n] := by
  rw [digitsRec, dif_pos h]

theorem digitsRec_ge (n : Nat) (h : ¬ n < 10) :
    digitsRec n = digitsRec (n / 10) ++ [Nat.digitChar (n % 10)] := by
  rw [digitsRec, dif_neg h]

theorem toDigitsCore_append (b : Nat) :
    ∀ (f n : Nat) (ds : List Char),
      Nat.toDigitsCore b f n ds = Nat.toDigitsCore b f n [] ++ ds := by
  intro f
  induction f with
  | zero => intro n ds; simp [Nat.toDigitsCore]
  | succ f ih =>
    intro n ds
    simp only [Nat.toDigitsCore]
    by_cases h : n / b = 0
    · simp [h]
    · rw [if_neg h, if_neg h, ih (n / b) (Nat.digitChar (n % b) :: ds),
        ih (n / b) [Nat.digitChar (n % b)], List.append_assoc, List.singleton_append]

theorem toDigitsCore_eq_digitsRec :
    ∀ (f n : Nat), n < f → Nat.toDigitsCore 10 f n [] = digitsRec n := by
  intro f
  induction f with
  | zero => intro n h; exact absurd h (Nat.not_lt_zero n)
  | succ f ih =>
    intro n h
    simp only [Nat.toDigitsCore]
    by_cases h10 : n / 10 = 0
    · have hn : n < 10 := by omega
      rw [if_pos h10, digitsRec_lt n hn, Nat.mod_eq_of_lt hn]
    · have hn : ¬ n < 10 := by omega
      have hdiv : n / 10 < f := by omega
      rw [if_neg h10, toDigitsCore_append, ih (n / 10) hdiv, digitsRec_ge n hn]

theorem repr_eq_digitsRec (n : Nat) : Nat.repr n = ⟨digitsRec n⟩ := by
  show (Nat.toDigits 10 n).asString = _
  rw [Nat.toDigits, toDigitsCore_eq_digitsRec (n + 1) n (Nat.lt_succ_self n)]
  rfl

theorem digitChar_toNat :
    ∀ m : Nat, m < 10 → (Nat.digitChar m).toNat = 48 + m := by
  intro m hm
  interval_cases m <;> decide

theorem digitsRec_foldl :
    ∀ (n a : Nat),
      List.foldl (fun a c => 10 * a + (c.toNat - 48)) a (digitsRec n)
        = a * 10 ^ (digitsRec n).length + n := by
  intro n
  induction n using Nat.strong_induction_on with
  | _ n ih =>
    intro a
    by_cases h : n < 10
    · rw [digitsRec_lt n h]
      simp [digitChar_toNat n h]
      omega
    · have hdiv : n / 10 < n := Nat.div_lt_self (by omega) (by omega)
      rw [digitsRec_ge n h, List.foldl_append, ih (n / 10) hdiv a]
      have hm : n % 10 < 10 := Nat.mod_lt n (by omega)
      simp [digitChar_toNat (n % 10) hm, pow_succ]
      have h10 : 10 * (n / 10) + n % 10 = n := Nat.div_add_mod n 10
      ring_nf
      omega

theorem digitsVal_digitsRec (n : Nat) : digitsVal (digitsRec n) = n := by
  have := digitsRec_foldl n 0
  simpa [digitsVal] using this

theorem digitsRec_inj {m n : Nat} (h : digitsRec m = digitsRec n) : m = n := by
  have := digitsVal_digitsRec m
  rw [h, digitsVal_digitsRec] at this
  omega

theorem repr_inj {m n : Nat} (h : Nat.repr m = Nat.repr n) : m = n := by
  rw [repr_eq_digitsRec, repr_eq_digitsRec] at h
  exact digitsRec_inj (congrArg String.data h)

theorem digitChar_ne_underscore :
    ∀ m : Nat, m < 10 → Nat.digitChar m ≠ '_' := by
  intro m hm
  interval_cases m <;> decide

theorem digitsRec_ne_underscore :
    ∀ (n : Nat), ∀ c ∈ digitsRec n, c ≠ '_' := by
  intro n
  induction n using Nat.strong_induction_on with
  | _ n ih =>
    intro c hc
    by_cases h : n < 10
    · rw [digitsRec_lt n h] at hc
      simp at hc
      exact hc ▸ digitChar_ne_underscore n h
    · have hdiv : n / 10 < n := Nat.div_lt_self (by omega) (by omega)
      rw [digitsRec_ge n h] at hc
      rcases List.mem_append.mp hc with h1 | h2
      · exact ih (n / 10) hdiv c h1
      · simp at h2
        exact h2 ▸ digitChar_ne_underscore (n % 10) (Nat.mod_lt n (by omega))

/-- Splitting a character list at a delimiter that occurs in neither
left part is unambiguous. -/
theorem append_underscore_inj :
    ∀ (as bs xs ys : List Char),
      (∀ c ∈ as, c ≠ '_') → (∀ c ∈ bs, c ≠ '_') →
      as ++ '_' :: xs = bs ++ '_' :: ys → as = bs ∧ xs = ys := by
  intro as
  induction as with
  | nil =>
    intro bs xs ys _ hbs h
    cases bs with
    | nil => simpa using h
    | cons b bs' =>
      simp at h
      exact absurd h.1.symm (hbs b (List.mem_cons_self b bs'))
  | cons a as' ih =>
    intro bs xs ys has hbs h
    cases bs with
    | nil =>
      simp at h
      exact absurd h.1 (has a (List.mem_cons_self a as'))
    | cons b bs' =>
      simp at h
      obtain ⟨rfl, h2⟩ := h
      obtain ⟨h3, h4⟩ := ih bs' xs ys
        (fun c hc => has c (List.mem_cons_of_mem a hc))
        (fun c hc => hbs c (List.mem_cons_of_mem a hc)) h2
      exact ⟨by rw [h3], h4⟩

theorem string_data_append (s t : String) : (s ++ t).data = s.data ++ t.data :=
  rfl

/-- Injectivity of the `chunk_id` format for a fixed filename:
`f"{filename}_p{p}_c{j}"` determines `(p, j)`. -/
theorem chunk_id_inj (f : String) (p j p' j' : Nat)
    (h : f ++ "_p" ++ Nat.repr p ++ "_c" ++ Nat.repr j
       = f ++ "_p" ++ Nat.repr p' ++ "_c" ++ Nat.repr j') :
    p = p' ∧ j = j' := by
  have hd := congrArg String.data h
  simp only [string_data_append] at hd
  have hd' : f.data ++ ('_' :: 'p' :: ((Nat.repr p).data
      ++ '_' :: 'c' :: (Nat.repr j).data))
      = f.data ++ ('_' :: 'p' :: ((Nat.repr p').data
      ++ '_' :: 'c' :: (Nat.repr j').data)) := by
    simpa [List.append_assoc] using hd
  have h2 := List.append_cancel_left hd'
  simp only [List.cons.injEq, true_and] at h2
  have hp : ∀ c ∈ (Nat.repr p).data, c ≠ '_' := by
    rw [repr_eq_digitsRec]; exact digitsRec_ne_underscore p
  have hp' : ∀ c ∈ (Nat.repr p').data, c ≠ '_' := by
    rw [repr_eq_digitsRec]; exact digitsRec_ne_underscore p'
  obtain ⟨ha, hb⟩ := append_underscore_inj _ _ _ _ hp hp' h2
  simp only [List.cons.injEq, true_and] at hb
  constructor
  · refine digitsRec_inj ?_
    rw [repr_eq_digitsRec, repr_eq_digitsRec] at ha
    exact ha
  · refine digitsRec_inj ?_
    rw [repr_eq_digitsRec, repr_eq_digitsRec] at hb
    exact hb


/-! ### Helper lemmas -/

theorem pyOrEmpty_ne_none (m : Option Meta) : pyOrEmpty m ≠ none := by
  cases m with
  | none => simp [pyOrEmpty]
  | some d =>
    by_cases h : d = [] <;> simp [pyOrEmpty, h]

/-! ### C5: validation order -/

/-- C5: `run_search_logic` validates in the fixed order empty selection,
then blank query, then non-positive `k`; the first failing check wins.
In particular `search("", "5", {})` yields the empty-selection warning. -/
theorem validation_order :
    (∀ (encode : String → Except String Vec)
       (query : String → Vec → Int → Except String QueryResult)
       (q k : String),
      run_search_logic encode query q k []
        = .ok (.warning "Please select at least one source to search."))
    ∧ (∀ (encode : String → Except String Vec)
         (query : String → Vec → Int → Except String QueryResult)
         (q k : String) (sel : List String),
        sel ≠ [] → pyStrip q = "" →
        run_search_logic encode query q k sel
          = .ok (.warning "Please enter a query."))
    ∧ (∀ (encode : String → Except String Vec)
         (query : String → Vec → Int → Except String QueryResult)
         (q k : String) (sel : List String),
        sel ≠ [] → pyStrip q ≠ "" → parse_positive_k k = none →
        run_search_logic encode query q k sel
          = .ok (.warning "Please enter a valid positive number for matches."))
    ∧ (∀ (encode : String → Except String Vec)
         (query : String → Vec → Int → Except String QueryResult),
        run_search_logic encode query "" "5" []
          = .ok (.warning "Please select at least one source to search.")) := by
  refine ⟨fun _ _ _ _ => rfl, ?_, ?_, fun _ _ => rfl⟩
  · intro encode query q k sel h1 h2
    simp only [run_search_logic, if_neg h1, if_pos h2]
    rfl
  · intro encode query q k sel h1 h2 h3
    simp only [run_search_logic, if_neg h1, if_neg h2, h3]
    rfl

/-- Witness for C5 at concrete inputs. -/
theorem validation_order_witness :
    ((["paperA"] : List String) ≠ [] ∧ pyStrip " " = ""
      ∧ run_search_logic encodeOk storeGood " " "5" ["paperA"]
          = .ok (.warning "Please enter a query."))
    ∧ ((["paperA"] : List String) ≠ [] ∧ pyStrip "hi" ≠ ""
        ∧ parse_positive_k "0" = none
        ∧ run_search_logic encodeOk storeGood "hi" "0" ["paperA"]
            = .ok (.warning "Please enter a valid positive number for matches.")) :=
  ⟨⟨by decide, by decide,
    validation_order.2.1 encodeOk storeGood " " "5" ["paperA"] (by decide) (by decide)⟩,
   ⟨by decide, by decide, by decide,
    validation_order.2.2.1 encodeOk storeGood "hi" "0" ["paperA"]
      (by decide) (by decide) (by decide)⟩⟩

/-! ### C7: blank query and encoder failure -/

/-- C7: a query blank after trimming embeds to `none` without consulting
the encoder (the result does not depend on the encoder at all), and an
encoder failure is caught and embeds to `none`. -/
theorem embed_query_blank_or_failure :
    (∀ (e₁ e₂ : String → Except String Vec) (q : String),
      pyStrip q = "" → embed_query e₁ q = none ∧ embed_query e₁ q = embed_query e₂ q)
    ∧ (∀ (e : String → Except String Vec) (q err : String),
      e (pyStrip q) = Except.error err → embed_query e q = none) := by
  constructor
  · intro e₁ e₂ q hq
    constructor <;> simp [embed_query, hq]
  · intro e q err herr
    by_cases hq : pyStrip q = ""
    · simp [embed_query, hq]
    · simp [embed_query, hq, herr]

/-- Witness for C7 at concrete inputs. -/
theorem embed_query_blank_or_failure_witness :
    (pyStrip "   " = "" ∧ embed_query encodeOk "   " = none
      ∧ embed_query encodeOk "   " = embed_query encodeFail "   ")
    ∧ (encodeFail (pyStrip "hello") = Except.error "model down"
      ∧ embed_query encodeFail "hello" = none) :=
  ⟨⟨by decide,
    (embed_query_blank_or_failure.1 encodeOk encodeFail "   " (by decide)).1,
    (embed_query_blank_or_failure.1 encodeOk encodeFail "   " (by decide)).2⟩,
   ⟨rfl, embed_query_blank_or_failure.2 encodeFail "hello" "model down" rfl⟩⟩

/-! ### C8: per-collection k clamp -/

/-- C8: with a present query embedding, the per-collection store query is
issued with exactly `max(1, min(k, 50))`, which always lies in `[1, 50]`. -/
theorem retrieve_top_k_clamp :
    (∀ (query : String → Vec → Int → Except String QueryResult)
       (v : Vec) (k : Int) (name : String),
      retrieve_top_k query (some v) k name = query name v (clamp_k k))
    ∧ (∀ k : Int, clamp_k k = max 1 (min k 50) ∧ 1 ≤ clamp_k k ∧ clamp_k k ≤ 50) := by
  refine ⟨fun _ _ _ _ => rfl, fun k => ⟨rfl, ?_, ?_⟩⟩ <;>
    · unfold clamp_k
      omega

/-! ### C10: metadata is never null -/

/-- C10: the `Source` constructor replaces a `None` metadata with the
empty mapping, and every record flattened by `get_sources` carries a
non-null metadata mapping. -/
theorem source_metadata_never_none :
    (∀ (f i d : String) (dist : Rat),
      (Source.make f i d none dist).metadata = some [])
    ∧ (∀ (rbc : List (String × QueryResult)), ∀ s ∈ get_sources rbc,
        s.metadata ≠ none) := by
  constructor
  · intro f i d dist; rfl
  · intro rbc s hs
    simp only [get_sources, List.mem_flatMap] at hs
    obtain ⟨fr, _, hs⟩ := hs
    by_cases h : fr.2.hasHits
    · rw [if_pos h] at hs
      simp only [sources_of_result, List.mem_map] at hs
      obtain ⟨i, _, rfl⟩ := hs
      exact pyOrEmpty_ne_none _
    · rw [if_neg h] at hs
      exact absurd hs (List.not_mem_nil s)

/-- Witness for C10 at a concrete flattened record. -/
theorem source_metadata_never_none_witness :
    Source.make "paperA" "a1" "docA1" (some [("source", "paperA")]) 1
        ∈ get_sources [("paperA", goodQR)]
    ∧ (Source.make "paperA" "a1" "docA1" (some [("source", "paperA")]) 1).metadata
        ≠ none :=
  ⟨by decide,
   source_metadata_never_none.2 [("paperA", goodQR)]
     (Source.make "paperA" "a1" "docA1" (some [("source", "paperA")]) 1)
     (by decide)⟩

/-! ### C2: a store failure during a multi-collection search -/

theorem except_bind_ok {α β : Type} (a : α) (f : α → Except String β) :
    (Except.ok a >>= f : Except String β) = f a := rfl

theorem except_bind_error {α β : Type} (e : String) (f : α → Except String β) :
    (Except.error e >>= f : Except String β) = Except.error e := rfl

theorem except_map_error {α β : Type} (e : String) (f : α → β) :
    (f <$> (Except.error e : Except String α)) = Except.error e := rfl

theorem except_map_ok {α β : Type} (a : α) (f : α → β) :
    (f <$> (Except.ok a : Except String α)) = Except.ok (f a) := rfl

theorem except_pure {α : Type} (a : α) :
    (pure a : Except String α) = Except.ok a := rfl

theorem collect_results_skip
    (query : String → Vec → Int → Except String QueryResult) (v : Vec) (k : Int)
    (pre : List String) (post : List String) (name : String) (res : QueryResult)
    (hok : query name v (clamp_k k) = .ok res) (hhits : res.hasHits = false) :
    collect_results query (some v) k (pre ++ name :: post)
      = collect_results query (some v) k (pre ++ post) := by
  induction pre with
  | nil =>
    simp only [List.nil_append, collect_results, retrieve_top_k, hok]
    cases h : collect_results query (some v) k post with
    | error e => simp [h, except_bind_ok, except_bind_error]
    | ok tail => simp [h, hhits, except_bind_ok, except_pure]
  | cons a pre ih =>
    simp only [List.cons_append, collect_results, List.append_eq, ih]

theorem collect_results_error
    (query : String → Vec → Int → Except String QueryResult) (v : Vec) (k : Int)
    (names : List String) (name : String) (e : String)
    (hmem : name ∈ names) (herr : query name v (clamp_k k) = .error e) :
    ∃ msg, collect_results query (some v) k names = .error msg := by
  induction names with
  | nil => exact absurd hmem (List.not_mem_nil name)
  | cons a rest ih =>
    rcases List.mem_cons.mp hmem with rfl | hmem'
    · exact ⟨e, by
        simp [collect_results, retrieve_top_k, herr, except_bind_error]⟩
    · cases h : query a v (clamp_k k) with
      | error e' => exact ⟨e', by
          simp [collect_results, retrieve_top_k, h, except_bind_error]⟩
      | ok r =>
        obtain ⟨msg, hmsg⟩ := ih hmem'
        exact ⟨msg, by
          simp [collect_results, retrieve_top_k, h, hmsg, except_bind_ok,
            except_bind_error]⟩

/-- C2 counterexample: with a store that raises for collection `"bad"`,
the whole search aborts with the store's exception instead of completing
with the surviving collection's merged results. -/
theorem store_failure_aborts_cex :
    run_search_logic encodeOk storeFailBad "q" "5" ["bad", "good"] = .error "boom"
    ∧ run_search_logic encodeOk storeFailBad "q" "5" ["bad", "good"]
        ≠ .ok (.results (get_top_k_sources (get_sources [("good", goodQR)]) 5)) := by
  refine ⟨rfl, ?_⟩
  intro h
  rw [show run_search_logic encodeOk storeFailBad "q" "5" ["bad", "good"]
      = .error "boom" from rfl] at h
  exact Except.noConfusion h

/-- C2 amended: a selected collection whose query *returns* a hit-free
result contributes zero candidates and is skipped, but a collection whose
query *raises* makes the exception propagate: the whole search aborts
with an error instead of returning the other collections' results. -/
theorem store_failure_handling :
    (∀ (query : String → Vec → Int → Except String QueryResult) (v : Vec)
       (k : Int) (pre post : List String) (name : String) (res : QueryResult),
      query name v (clamp_k k) = .ok res → res.hasHits = false →
      collect_results query (some v) k (pre ++ name :: post)
        = collect_results query (some v) k (pre ++ post))
    ∧ (∀ (encode : String → Except String Vec)
         (query : String → Vec → Int → Except String QueryResult)
         (uq nk : String) (sel : List String) (k : Int) (v : Vec)
         (name : String) (e : String),
        sel ≠ [] → pyStrip uq ≠ "" → parse_positive_k nk = some k →
        embed_query encode uq = some v → name ∈ sel →
        query name v (clamp_k k) = .error e →
        ∃ msg, run_search_logic encode query uq nk sel = .error msg) := by
  constructor
  · exact collect_results_skip
  · intro encode query uq nk sel k v name e h1 h2 h3 h4 h5 h6
    obtain ⟨msg, hmsg⟩ := collect_results_error query v k sel name e h5 h6
    refine ⟨msg, ?_⟩
    simp only [run_search_logic, if_neg h1, if_neg h2, h3, h4, hmsg]
    rfl

/-- Witness for the amended C2 at concrete inputs. -/
theorem store_failure_handling_witness :
    (storeEmpty "y" [1] (clamp_k 5) = .ok emptyQueryResult
      ∧ emptyQueryResult.hasHits = false
      ∧ collect_results storeEmpty (some [1]) 5 (["x"] ++ "y" :: [])
          = collect_results storeEmpty (some [1]) 5 (["x"] ++ []))
    ∧ ((["bad", "good"] : List String) ≠ [] ∧ pyStrip "q" ≠ ""
        ∧ parse_positive_k "5" = some 5
        ∧ embed_query encodeOk "q" = some [1]
        ∧ "bad" ∈ (["bad", "good"] : List String)
        ∧ storeFailBad "bad" [1] (clamp_k 5) = .error "boom"
        ∧ ∃ msg, run_search_logic encodeOk storeFailBad "q" "5" ["bad", "good"]
            = .error msg) :=
  ⟨⟨rfl, rfl,
    store_failure_handling.1 storeEmpty [1] 5 ["x"] [] "y" emptyQueryResult rfl rfl⟩,
   ⟨by decide, by decide, by decide, by decide, by decide, rfl,
    store_failure_handling.2 encodeOk storeFailBad "q" "5" ["bad", "good"] 5 [1]
      "bad" "boom" (by decide) (by decide) (by decide) (by decide) (by decide) rfl⟩⟩

/-! ### C6 and C9: outcome classification and merge completeness -/

theorem collect_results_all_empty
    (query : String → Vec → Int → Except String QueryResult) (v : Vec) (k : Int)
    (names : List String)
    (h : ∀ name ∈ names, ∃ res, query name v (clamp_k k) = .ok res
        ∧ res.hasHits = false) :
    collect_results query (some v) k names = .ok [] := by
  induction names with
  | nil => rfl
  | cons a rest ih =>
    obtain ⟨res, hok, hh⟩ := h a (List.mem_cons_self a rest)
    have htail := ih fun n hn => h n (List.mem_cons_of_mem a hn)
    simp [collect_results, retrieve_top_k, hok, htail, hh, except_bind_ok,
      except_pure]

theorem collect_results_mem
    (query : String → Vec → Int → Except String QueryResult) (v : Vec) (k : Int) :
    ∀ (names : List String) (rbc : List (String × QueryResult)),
      collect_results query (some v) k names = .ok rbc →
      ∀ pr ∈ rbc, pr.1 ∈ names ∧ query pr.1 v (clamp_k k) = .ok pr.2
        ∧ pr.2.hasHits = true := by
  intro names
  induction names with
  | nil =>
    intro rbc h pr hpr
    simp only [collect_results] at h
    cases h
    exact absurd hpr (List.not_mem_nil pr)
  | cons a rest ih =>
    intro rbc h pr hpr
    cases hq : query a v (clamp_k k) with
    | error e =>
      rw [collect_results] at h
      simp [retrieve_top_k, hq, except_bind_error] at h
    | ok r =>
      cases hc : collect_results query (some v) k rest with
      | error e =>
        rw [collect_results] at h
        simp [retrieve_top_k, hq, hc, except_bind_ok, except_bind_error] at h
      | ok tail =>
        rw [collect_results] at h
        simp only [retrieve_top_k, hq, hc, except_bind_ok, except_pure,
          Except.ok.injEq] at h
        subst h
        by_cases hh : r.hasHits = true
        · rw [if_pos hh] at hpr
          rcases List.mem_cons.mp hpr with rfl | hpr'
          · exact ⟨List.mem_cons_self a rest, hq, hh⟩
          · obtain ⟨h1, h2, h3⟩ := ih tail hc pr hpr'
            exact ⟨List.mem_cons_of_mem a h1, h2, h3⟩
        · rw [if_neg hh] at hpr
          obtain ⟨h1, h2, h3⟩ := ih tail hc pr hpr
          exact ⟨List.mem_cons_of_mem a h1, h2, h3⟩

/-- C6: when the query embeds but every selected collection answers with
zero candidates, the outcome is the "no results" warning; given that at
least one collection contributed candidates, the "no matches" info
outcome occurs exactly when the flattened-then-truncated list is empty;
and every collected entry really was returned, with hits, by its
collection's query. -/
theorem empty_results_classification :
    (∀ (encode : String → Except String Vec)
       (query : String → Vec → Int → Except String QueryResult)
       (uq nk : String) (sel : List String) (k : Int) (v : Vec),
      sel ≠ [] → pyStrip uq ≠ "" → parse_positive_k nk = some k →
      embed_query encode uq = some v →
      (∀ name ∈ sel, ∃ res, query name v (clamp_k k) = .ok res
          ∧ res.hasHits = false) →
      run_search_logic encode query uq nk sel
        = .ok (.warning "No results returned from the selected sources."))
    ∧ (∀ (encode : String → Except String Vec)
         (query : String → Vec → Int → Except String QueryResult)
         (uq nk : String) (sel : List String) (k : Int) (v : Vec)
         (rbc : List (String × QueryResult)),
        sel ≠ [] → pyStrip uq ≠ "" → parse_positive_k nk = some k →
        embed_query encode uq = some v →
        collect_results query (some v) k sel = .ok rbc → rbc ≠ [] →
        (run_search_logic encode query uq nk sel = .ok (.info "No matches found.")
          ↔ get_top_k_sources (get_sources rbc) k = []))
    ∧ (∀ (query : String → Vec → Int → Except String QueryResult) (v : Vec)
         (k : Int) (sel : List String) (rbc : List (String × QueryResult)),
        collect_results query (some v) k sel = .ok rbc →
        ∀ pr ∈ rbc, pr.1 ∈ sel ∧ query pr.1 v (clamp_k k) = .ok pr.2
          ∧ pr.2.hasHits = true) := by
  refine ⟨?_, ?_, fun query v k sel rbc h => collect_results_mem query v k sel rbc h⟩
  · intro encode query uq nk sel k v h1 h2 h3 h4 hall
    have hcol := collect_results_all_empty query v k sel hall
    simp only [run_search_logic, if_neg h1, if_neg h2, h3, h4, hcol,
      except_bind_ok]
    rfl
  · intro encode query uq nk sel k v rbc h1 h2 h3 h4 hcol hrbc
    simp only [run_search_logic, if_neg h1, if_neg h2, h3, h4, hcol,
      except_bind_ok, if_neg hrbc]
    by_cases ht : get_top_k_sources (get_sources rbc) k = []
    · rw [if_pos ht]
      simp [except_pure, ht]
    · rw [if_neg ht]
      simp [except_pure, ht]

/-- C9: every id in a returned ranked result set came from some selected
collection's own query answer; merging never invents ids. -/
theorem merge_completeness
    (encode : String → Except String Vec)
    (query : String → Vec → Int → Except String QueryResult)
    (uq nk : String) (sel : List String) (items : List Source) (k : Int) (v : Vec)
    (hk : parse_positive_k nk = some k)
    (hv : embed_query encode uq = some v)
    (hrun : run_search_logic encode query uq nk sel = .ok (.results items)) :
    ∀ s ∈ items, ∃ name ∈ sel, ∃ res,
      query name v (clamp_k k) = .ok res ∧ s.id ∈ res.ids.headD [] := by
  intro s hs
  by_cases h1 : sel = []
  · rw [h1] at hrun
    simp [run_search_logic, except_pure] at hrun
  by_cases h2 : pyStrip uq = ""
  · simp [run_search_logic, if_neg h1, if_pos h2, except_pure] at hrun
  simp only [run_search_logic, if_neg h1, if_neg h2, hk, hv] at hrun
  cases hcol : collect_results query (some v) k sel with
  | error e =>
    rw [hcol, except_bind_error] at hrun
    exact Except.noConfusion hrun
  | ok rbc =>
    rw [hcol, except_bind_ok] at hrun
    by_cases hr : rbc = []
    · rw [if_pos hr] at hrun
      simp [except_pure] at hrun
    rw [if_neg hr] at hrun
    by_cases ht : get_top_k_sources (get_sources rbc) k = []
    · rw [if_pos ht] at hrun
      simp [except_pure] at hrun
    rw [if_neg ht] at hrun
    simp only [except_pure, Except.ok.injEq, Outcome.results.injEq] at hrun
    rw [← hrun] at hs
    by_cases hflat : get_sources rbc = []
    · rw [get_top_k_sources, if_pos hflat] at hs
      exact absurd hs (List.not_mem_nil s)
    rw [get_top_k_sources, if_neg hflat] at hs
    have hs2 : s ∈ get_sources rbc :=
      List.mem_mergeSort.mp (List.mem_of_mem_take hs)
    simp only [get_sources, List.mem_flatMap] at hs2
    obtain ⟨fr, hfr, hsf⟩ := hs2
    by_cases hh : fr.2.hasHits = true
    · rw [if_pos hh] at hsf
      simp only [sources_of_result, List.mem_map, List.mem_range] at hsf
      obtain ⟨i, hi, hmk⟩ := hsf
      obtain ⟨hmem, hq, _⟩ := collect_results_mem query v k sel rbc hcol fr hfr
      refine ⟨fr.1, hmem, fr.2, hq, ?_⟩
      rw [← hmk]
      show (fr.2.ids.headD []).getD i "" ∈ fr.2.ids.headD []
      rw [List.getD_eq_getElem (fr.2.ids.headD []) "" hi]
      exact List.getElem_mem hi
    · rw [if_neg hh] at hsf
      exact absurd hsf (List.not_mem_nil s)

theorem itemsFix_eq :
    get_top_k_sources (get_sources [("paperA", goodQR)]) 5
      = get_sources [("paperA", goodQR)] := by
  rw [get_top_k_sources, if_neg (by decide)]
  rw [List.mergeSort_of_sorted (by decide)]
  decide

theorem run_good :
    run_search_logic encodeOk storeGood "q" "5" ["paperA"]
      = .ok (.results (get_top_k_sources (get_sources [("paperA", goodQR)]) 5)) := by
  have hne : get_top_k_sources (get_sources [("paperA", goodQR)]) 5 ≠ [] := by
    rw [itemsFix_eq]; decide
  calc run_search_logic encodeOk storeGood "q" "5" ["paperA"]
      = if get_top_k_sources (get_sources [("paperA", goodQR)]) 5 = []
        then Except.ok (Outcome.info "No matches found.")
        else Except.ok (Outcome.results
          (get_top_k_sources (get_sources [("paperA", goodQR)]) 5)) := rfl
    _ = _ := by rw [if_neg hne]

/-- Witness for C6 at concrete inputs. -/
theorem empty_results_classification_witness :
    ((["paperA"] : List String) ≠ [] ∧ pyStrip "q" ≠ ""
      ∧ parse_positive_k "5" = some 5 ∧ embed_query encodeOk "q" = some [1]
      ∧ (∀ name ∈ (["paperA"] : List String), ∃ res,
          storeEmpty name [1] (clamp_k 5) = .ok res ∧ res.hasHits = false)
      ∧ run_search_logic encodeOk storeEmpty "q" "5" ["paperA"]
          = .ok (.warning "No results returned from the selected sources."))
    ∧ (collect_results storeGood (some [1]) 5 ["paperA"] = .ok [("paperA", goodQR)]
      ∧ ([("paperA", goodQR)] : List (String × QueryResult)) ≠ []
      ∧ (run_search_logic encodeOk storeGood "q" "5" ["paperA"]
            = .ok (.info "No matches found.")
          ↔ get_top_k_sources (get_sources [("paperA", goodQR)]) 5 = []))
    ∧ (("paperA", goodQR).1 ∈ (["paperA"] : List String)
      ∧ storeGood "paperA" [1] (clamp_k 5) = .ok goodQR
      ∧ goodQR.hasHits = true) :=
  ⟨⟨by decide, by decide, by decide, rfl,
    fun name _ => ⟨emptyQueryResult, rfl, rfl⟩,
    empty_results_classification.1 encodeOk storeEmpty "q" "5" ["paperA"] 5 [1]
      (by decide) (by decide) (by decide) rfl
      fun name _ => ⟨emptyQueryResult, rfl, rfl⟩⟩,
   ⟨rfl, by decide,
    empty_results_classification.2.1 encodeOk storeGood "q" "5" ["paperA"] 5 [1]
      [("paperA", goodQR)] (by decide) (by decide) (by decide) rfl rfl (by decide)⟩,
   by
     have h := empty_results_classification.2.2 storeGood [1] 5 ["paperA"]
       [("paperA", goodQR)] rfl ("paperA", goodQR) (by decide)
     exact ⟨h.1, h.2.1, h.2.2⟩⟩

/-- Witness for C9 at concrete inputs. -/
theorem merge_completeness_witness :
    parse_positive_k "5" = some 5
    ∧ embed_query encodeOk "q" = some [1]
    ∧ run_search_logic encodeOk storeGood "q" "5" ["paperA"]
        = .ok (.results (get_top_k_sources (get_sources [("paperA", goodQR)]) 5))
    ∧ (∀ s ∈ get_top_k_sources (get_sources [("paperA", goodQR)]) 5,
        ∃ name ∈ (["paperA"] : List String), ∃ res,
          storeGood name [1] (clamp_k 5) = .ok res ∧ s.id ∈ res.ids.headD []) :=
  ⟨by decide, rfl, run_good,
   merge_completeness encodeOk storeGood "q" "5" ["paperA"]
     (get_top_k_sources (get_sources [("paperA", goodQR)]) 5) 5 [1]
     (by decide) rfl run_good⟩

/-! ### C1: global re-rank is a truncated stable ascending sort -/

/-- C1: for a positive `k`, `get_top_k_sources` returns the first `k`
entries of a stable ascending sort of the input by distance: the result
has length `min k n`, adjacent distances are non-decreasing, and for
every distance value the result's records with that distance form a
prefix of the input's records with that distance (ties keep the
first-encountered input order). -/
theorem get_top_k_sources_stable_sort (sources_list : List Source) (num_k : Int)
    (hk : 0 < num_k) :
    (get_top_k_sources sources_list num_k).length
        = min num_k.toNat sources_list.length
    ∧ (∀ (i : Nat) (h : i + 1 < (get_top_k_sources sources_list num_k).length),
        ((get_top_k_sources sources_list num_k).get
            ⟨i, Nat.lt_of_succ_lt h⟩).distance
          ≤ ((get_top_k_sources sources_list num_k).get ⟨i + 1, h⟩).distance)
    ∧ (∀ d : Rat, ∃ rest : List Source,
        (get_top_k_sources sources_list num_k).filter
            (fun s => decide (s.distance = d)) ++ rest
          = sources_list.filter (fun s => decide (s.distance = d))) := by
  by_cases hl : sources_list = []
  · subst hl
    refine ⟨by simp [get_top_k_sources], ?_, ?_⟩
    · intro i h
      simp [get_top_k_sources] at h
    · intro d
      exact ⟨[], by simp [get_top_k_sources]⟩
  · have htrans : ∀ a b c : Source, decide (a.distance ≤ b.distance) →
        decide (b.distance ≤ c.distance) → decide (a.distance ≤ c.distance) := by
      intro a b c hab hbc
      simp only [decide_eq_true_eq] at hab hbc ⊢
      exact le_trans hab hbc
    have htotal : ∀ a b : Source,
        decide (a.distance ≤ b.distance) || decide (b.distance ≤ a.distance) := by
      intro a b
      simpa using le_total a.distance b.distance
    have hunfold : get_top_k_sources sources_list num_k
        = (sources_list.mergeSort
            fun a b => decide (a.distance ≤ b.distance)).take num_k.toNat := by
      rw [get_top_k_sources, if_neg hl]
    refine ⟨?_, ?_, ?_⟩
    · rw [hunfold, List.length_take, List.length_mergeSort]
    · intro i h
      have hp : List.Pairwise
          (fun a b : Source => decide (a.distance ≤ b.distance) = true)
          (get_top_k_sources sources_list num_k) := by
        rw [hunfold]
        exact (List.sorted_mergeSort htrans htotal sources_list).sublist
          (List.take_sublist _ _)
      have := List.pairwise_iff_get.mp hp ⟨i, Nat.lt_of_succ_lt h⟩ ⟨i + 1, h⟩
        (by simp [Fin.lt_def])
      simpa only [decide_eq_true_eq] using this
    · intro d
      have hpair : List.Pairwise
          (fun a b : Source => decide (a.distance ≤ b.distance) = true)
          (sources_list.filter fun s => decide (s.distance = d)) := by
        refine List.pairwise_iff_forall_sublist.mpr ?_
        intro a b hab
        have ha : a ∈ sources_list.filter fun s => decide (s.distance = d) :=
          hab.subset (by simp)
        have hb : b ∈ sources_list.filter fun s => decide (s.distance = d) :=
          hab.subset (by simp)
        have ha' := (List.mem_filter.mp ha).2
        have hb' := (List.mem_filter.mp hb).2
        simp only [decide_eq_true_eq] at ha' hb' ⊢
        rw [ha', hb']
      have hsub2 : List.Sublist
          (sources_list.filter fun s => decide (s.distance = d))
          (sources_list.mergeSort fun a b => decide (a.distance ≤ b.distance)) :=
        List.sublist_mergeSort htrans htotal hpair (List.filter_sublist _)
      have hsub3 : List.Sublist
          (sources_list.filter fun s => decide (s.distance = d))
          ((sources_list.mergeSort
              fun a b => decide (a.distance ≤ b.distance)).filter
            (fun s => decide (s.distance = d))) := by
        have h2 := hsub2.filter (fun s => decide (s.distance = d))
        simpa using h2
      have hperm : List.Perm
          ((sources_list.mergeSort
            fun a b => decide (a.distance ≤ b.distance)).filter
              (fun s => decide (s.distance = d)))
          (sources_list.filter (fun s => decide (s.distance = d))) :=
        (List.mergeSort_perm sources_list _).filter _
      have heq : (sources_list.filter fun s => decide (s.distance = d))
          = (sources_list.mergeSort
              fun a b => decide (a.distance ≤ b.distance)).filter
            (fun s => decide (s.distance = d)) :=
        hsub3.eq_of_length hperm.length_eq.symm
      refine ⟨((sources_list.mergeSort
          fun a b => decide (a.distance ≤ b.distance)).drop num_k.toNat).filter
            (fun s => decide (s.distance = d)), ?_⟩
      rw [hunfold, ← List.filter_append, List.take_append_drop, ← heq]

/-- Witness for C1 at a concrete list with a distance tie. -/
theorem get_top_k_sources_stable_sort_witness :
    (0 : Int) < 2
    ∧ ((get_top_k_sources wList 2).length = min (2 : Int).toNat wList.length
      ∧ (∀ (i : Nat) (h : i + 1 < (get_top_k_sources wList 2).length),
          ((get_top_k_sources wList 2).get ⟨i, Nat.lt_of_succ_lt h⟩).distance
            ≤ ((get_top_k_sources wList 2).get ⟨i + 1, h⟩).distance)
      ∧ (∀ d : Rat, ∃ rest : List Source,
          (get_top_k_sources wList 2).filter (fun s => decide (s.distance = d))
              ++ rest
            = wList.filter (fun s => decide (s.distance = d)))) :=
  ⟨by decide, get_top_k_sources_stable_sort wList 2 (by decide)⟩

/-! ### C3: the page-boundary carry-over window -/

set_option maxRecDepth 4000 in
/-- C3 counterexample: the text handed to the splitter for page 1
prepends the last **300** characters of page 0's text, not the last
`chunk_overlap = 200` characters claimed from the splitter
configuration (the fixture page text is 301 characters long, so the two
windows differ). -/
theorem overlap_window_cex :
    text_to_split cexPages 1
      ≠ pyTail (cexPages.getD 0 defaultPage).text chunk_overlap ++ " "
        ++ (cexPages.getD 1 defaultPage).text := by
  decide

/-- C3 amended: for every page after the first, the text submitted to
the splitter is the last 300 characters (a hard-coded constant, not the
configured overlap) of the previous page's text, one separating space,
then the page's own text; the first page's text is submitted
unmodified. -/
theorem page_carry_over :
    (∀ (pages : List Page) (i : Nat) (hi : i + 1 < pages.length),
      text_to_split pages (i + 1)
        = pyTail (pages.get ⟨i, Nat.lt_of_succ_lt hi⟩).text 300 ++ " "
          ++ (pages.get ⟨i + 1, hi⟩).text)
    ∧ (∀ (p : Page) (rest : List Page), text_to_split (p :: rest) 0 = p.text) := by
  constructor
  · intro pages i hi
    have hi' : i < pages.length := Nat.lt_of_succ_lt hi
    simp only [text_to_split, if_pos (Nat.succ_pos i), Nat.add_sub_cancel]
    rw [List.getD_eq_getElem pages defaultPage hi,
      List.getD_eq_getElem pages defaultPage hi']
    rfl
  · intro p rest
    rfl

/-- Witness for the amended C3 at the concrete fixture pages. -/
theorem page_carry_over_witness :
    (0 + 1 < cexPages.length
      ∧ text_to_split cexPages (0 + 1)
          = pyTail (cexPages.get ⟨0, by decide⟩).text 300 ++ " "
            ++ (cexPages.get ⟨0 + 1, by decide⟩).text)
    ∧ text_to_split (longPage :: [⟨[2], "f", "tail"⟩]) 0 = longPage.text :=
  ⟨⟨by decide, page_carry_over.1 cexPages 0 (by decide)⟩,
   page_carry_over.2 longPage [⟨[2], "f", "tail"⟩]⟩

/-! ### C4: chunk id numbering and distinctness -/

/-- C4 counterexample: with a splitter emitting a whitespace-only middle
part, the blank part consumes the `j` index `1`, so the emitted chunk
ids jump from `c0` to `c2`: they are not contiguous. -/
theorem chunk_id_gap_cex :
    (split_pages_with_metadata blankSplitter onePage).map (fun c => c.chunk_id)
        = ["f_p1_c0", "f_p1_c2"]
    ∧ (split_pages_with_metadata blankSplitter onePage).map (fun c => c.chunk_id)
        ≠ ["f_p1_c0", "f_p1_c1"] := by
  constructor <;> decide

theorem map_filterMap_if {α β γ : Type} (p : α → Prop) [DecidablePred p]
    (F : α → β) (g : β → γ) (l : List α) :
    ((l.filterMap fun a => if p a then none else some (F a)).map g)
      = (l.filter fun a => decide (¬ p a)).map fun a => g (F a) := by
  induction l with
  | nil => rfl
  | cons a l ih =>
    by_cases h : p a <;>
      simp [List.filterMap_cons, List.filter_cons, h, ih]

theorem nodup_enum {α : Type} (l : List α) : l.enum.Nodup := by
  have h : (l.enum.map Prod.fst).Nodup := by
    rw [List.enum_map_fst]
    exact List.nodup_range _
  exact h.of_map _

theorem enum_fst_inj {α : Type} {l : List α} {x y : Nat × α}
    (hx : x ∈ l.enum) (hy : y ∈ l.enum) (h : x.1 = y.1) : x = y := by
  obtain ⟨i, hi, rfl⟩ := List.mem_iff_getElem.mp hx
  obtain ⟨j, hj, rfl⟩ := List.mem_iff_getElem.mp hy
  rw [List.getElem_enum, List.getElem_enum] at h ⊢
  simp only at h
  subst h
  rfl

/-- The chunk ids emitted for one page, in closed form. -/
theorem chunks_of_page_ids (split_text : String → List String)
    (pages : List Page) (i : Nat) :
    ((chunks_of_page split_text pages i).map fun c => c.chunk_id)
      = ((split_text (text_to_split pages i)).enum.filter
          (fun jp => decide ¬ (pyStrip jp.2 = ""))).map
        (fun jp => (pages.getD i defaultPage).source ++ "_p"
          ++ Nat.repr ((pages.getD i defaultPage).page_num.headD 0)
          ++ "_c" ++ Nat.repr jp.1) := by
  simp only [chunks_of_page]
  rw [map_filterMap_if (fun jp : Nat × String => pyStrip jp.2 = "")]

theorem page_ids_nodup (split_text : String → List String)
    (pages : List Page) (i : Nat) :
    ((chunks_of_page split_text pages i).map fun c => c.chunk_id).Nodup := by
  rw [chunks_of_page_ids]
  refine List.Nodup.map_on ?_ (((nodup_enum _).filter _))
  intro x hx y hy hxy
  have hj := (chunk_id_inj _ _ _ _ _ hxy).2
  exact enum_fst_inj (List.mem_of_mem_filter hx) (List.mem_of_mem_filter hy) hj

theorem mem_page_ids (split_text : String → List String)
    (pages : List Page) (i : Nat) (x : String)
    (hx : x ∈ (chunks_of_page split_text pages i).map fun c => c.chunk_id) :
    ∃ j : Nat, x = (pages.getD i defaultPage).source ++ "_p"
        ++ Nat.repr ((pages.getD i defaultPage).page_num.headD 0)
        ++ "_c" ++ Nat.repr j := by
  rw [chunks_of_page_ids] at hx
  simp only [List.mem_map] at hx
  obtain ⟨jp, _, rfl⟩ := hx
  exact ⟨jp.1, rfl⟩

/-- C4 amended: the `j` index is taken from `enumerate` over the raw
split parts, before whitespace-only parts are discarded, so a page's
emitted chunk ids may have gaps; nevertheless, for a single document
(every page carrying the same source name) whose pages have pairwise
distinct leading page numbers, all emitted chunk ids are pairwise
distinct. -/
theorem chunk_ids_pairwise_distinct (split_text : String → List String)
    (pages : List Page) (fname : String)
    (hsrc : ∀ p ∈ pages, p.source = fname)
    (hnum : (pages.map fun p => p.page_num.headD 0).Nodup) :
    ((split_pages_with_metadata split_text pages).map fun c => c.chunk_id).Nodup := by
  rw [split_pages_with_metadata, List.map_flatMap, List.nodup_flatMap]
  constructor
  · intro i _
    exact page_ids_nodup split_text pages i
  · refine List.pairwise_iff_get.mpr ?_
    intro a b hab
    have ha : (List.range pages.length).get a = a.1 := by
      simp [List.get_eq_getElem]
    have hb : (List.range pages.length).get b = b.1 := by
      simp [List.get_eq_getElem]
    rw [ha, hb]
    have halen : a.1 < pages.length := by
      have := a.2
      simpa using this
    have hblen : b.1 < pages.length := by
      have := b.2
      simpa using this
    have hne : a.1 ≠ b.1 := Nat.ne_of_lt hab
    -- distinct leading page numbers at distinct indices
    have hpn : (pages.getD a.1 defaultPage).page_num.headD 0
        ≠ (pages.getD b.1 defaultPage).page_num.headD 0 := by
      intro hcontra
      have hmapped := List.pairwise_iff_get.mp hnum
        ⟨a.1, by simpa using halen⟩ ⟨b.1, by simpa using hblen⟩ (by simpa using hab)
      apply hmapped
      rw [List.get_eq_getElem, List.get_eq_getElem, List.getElem_map,
        List.getElem_map]
      rw [List.getD_eq_getElem pages defaultPage halen,
        List.getD_eq_getElem pages defaultPage hblen] at hcontra
      exact hcontra
    -- sources coincide
    have hsa : (pages.getD a.1 defaultPage).source = fname := by
      rw [List.getD_eq_getElem pages defaultPage halen]
      exact hsrc _ (List.getElem_mem halen)
    have hsb : (pages.getD b.1 defaultPage).source = fname := by
      rw [List.getD_eq_getElem pages defaultPage hblen]
      exact hsrc _ (List.getElem_mem hblen)
    intro x hxa hxb
    obtain ⟨j, rfl⟩ := mem_page_ids split_text pages a.1 _ hxa
    obtain ⟨j', heq⟩ := mem_page_ids split_text pages b.1 _ hxb
    rw [hsa] at heq
    rw [hsb] at heq
    exact hpn (chunk_id_inj _ _ _ _ _ heq).1

/-- Witness for the amended C4 at concrete pages and splitter. -/
theorem chunk_ids_pairwise_distinct_witness :
    (∀ p ∈ twoPages, p.source = "f")
    ∧ (twoPages.map fun p => p.page_num.headD 0).Nodup
    ∧ ((split_pages_with_metadata blankSplitter twoPages).map
        fun c => c.chunk_id).Nodup :=
  ⟨by decide, by decide,
   chunk_ids_pairwise_distinct blankSplitter twoPages "f" (by decide) (by decide)⟩

end CiteWise
